import Mathlib

/-!
Verification of the core mapping computation of the nat-generator repository
(`src/nat-generator/app.py`, function `generate_nat_mapping`), together with a
shallow embedding of the parts of CPython 3.11's `ipaddress` standard library
that the function calls: `ip_network(text, strict=False)` (parsing, masking),
`hosts()`, network iteration, and the textual rendering of addresses.

Machine integers are modelled as `Nat` (addresses are their integer values in
network byte order, always below `2 ^ 32` respectively `2 ^ 128`), input text
is processed as `List Char` with Python `str.split` semantics, and every
Python exception that `generate_nat_mapping` can observe is modelled as an
`Except`/`Option` value.
-/

/-- A single-quote character as a string, used to spell Python `repr`-style
quoting in error messages. -/
def squote : String := String.singleton (Char.ofNat 39)

/-- Python `repr` of a short text, modelled for texts without quote or escape
characters (where the two differ the message is anyway swallowed by
`ip_network`, which catches every parse error and reports its own text). -/
def pyRepr (s : List Char) : String := squote ++ String.mk s ++ squote

/-- Python `str.split(sep)` on a list of characters: split at every occurrence
of `sep`, keeping empty pieces, so that the result is never empty and
`"".split(sep) == ['']`. -/
def splitOnChar (sep : Char) : List Char → List (List Char)
  | [] => [[]]
  | c :: cs =>
    if c = sep then [] :: splitOnChar sep cs
    else
      match splitOnChar sep cs with
      | [] => [[c]]
      | r :: rs => (c :: r) :: rs

/-- Numeric value of a decimal digit character. -/
def digitVal (c : Char) : Nat := c.toNat - 48

/-- Value of a list of decimal digits, most significant first (what Python's
`int` computes on a digits-only string). -/
def digitsToNat (l : List Char) : Nat := l.foldl (fun a c => 10 * a + digitVal c) 0

/-- Membership in CPython's `_HEX_DIGITS` frozenset. -/
def isHexDigitChar (c : Char) : Bool :=
  c.isDigit || ('a' ≤ c && c ≤ 'f') || ('A' ≤ c && c ≤ 'F')

/-- Numeric value of a hexadecimal digit character, either case. -/
def hexVal (c : Char) : Nat :=
  if c.isDigit then c.toNat - 48
  else if 'a' ≤ c then c.toNat - 87
  else c.toNat - 55

/-- Value of a list of hexadecimal digits, most significant first. -/
def hexToNat (l : List Char) : Nat := l.foldl (fun a c => 16 * a + hexVal c) 0

/-- CPython `_BaseV4._parse_octet`: a decimal octet, 1 to 3 ASCII digits, no
leading zero, value at most 255. -/
def parseOctet (octet : List Char) : Except String Nat :=
  if octet.isEmpty then .error "Empty octet not permitted"
  else if ¬ octet.all Char.isDigit then
    .error ("Only decimal digits permitted in " ++ pyRepr octet)
  else if octet.length > 3 then
    .error ("At most 3 characters permitted in " ++ pyRepr octet)
  else if octet ≠ ['0'] ∧ octet.headD ' ' = '0' then
    .error ("Leading zeros are not permitted in " ++ pyRepr octet)
  else
    let v := digitsToNat octet
    if v > 255 then .error ("Octet " ++ toString v ++ " (> 255) not permitted")
    else .ok v

/-- CPython `_BaseV4._ip_int_from_string`: exactly four octets joined by dots,
read big-endian. -/
def ipv4IntFromChars (s : List Char) : Except String Nat :=
  if s.isEmpty then .error "Address cannot be empty"
  else
    let octets := splitOnChar '.' s
    if octets.length ≠ 4 then .error ("Expected 4 octets in " ++ pyRepr s)
    else
      match octets.mapM parseOctet with
      | .error e => .error (e ++ " in " ++ pyRepr s)
      | .ok vs => .ok (vs.foldl (fun a b => 256 * a + b) 0)

/-- CPython `_prefix_from_prefix_string`: ASCII digits only, value between 0
and the family's maximal length. -/
def plenFromPlenChars (maxPlen : Nat) (s : List Char) : Except String Nat :=
  if s.isEmpty ∨ ¬ s.all Char.isDigit then
    .error (pyRepr s ++ " is not a valid netmask")
  else
    let p := digitsToNat s
    if p ≤ maxPlen then .ok p
    else .error (pyRepr s ++ " is not a valid netmask")

/-- Trailing zero bits of a number, 0 for 0; for positive `n` this is what
CPython computes as `(~n & (n-1)).bit_length()`. -/
def trailingZeroBits (n : Nat) : Nat :=
  if h : n = 0 then 0
  else if n % 2 = 1 then 0
  else 1 + trailingZeroBits (n / 2)
decreasing_by exact Nat.div_lt_self (Nat.pos_of_ne_zero h) Nat.one_lt_two

/-- CPython `_count_righthand_zero_bits`. -/
def countRighthandZeroBits (number bits : Nat) : Nat :=
  if number = 0 then bits else min bits (trailingZeroBits number)

/-- CPython `_prefix_from_ip_int`: recover a prefix length from a netmask
integer; `none` when the pattern mixes zeroes and ones (the only caller
catches that `ValueError`, so its message is not observable). -/
def plenFromIpInt (maxPlen ip : Nat) : Option Nat :=
  let tz := countRighthandZeroBits ip maxPlen
  let p := maxPlen - tz
  if ip >>> tz = 2 ^ p - 1 then some p else none

/-- CPython `_BaseV4._prefix_from_ip_string`: a dotted-quad netmask, or a
hostmask after complementing. -/
def plenFromIpCharsV4 (s : List Char) : Except String Nat :=
  match ipv4IntFromChars s with
  | .error _ => .error (pyRepr s ++ " is not a valid netmask")
  | .ok ip =>
    match plenFromIpInt 32 ip with
    | some p => .ok p
    | none =>
      match plenFromIpInt 32 (ip ^^^ (2 ^ 32 - 1)) with
      | some p => .ok p
      | none => .error (pyRepr s ++ " is not a valid netmask")

/-- CPython `_BaseV4._make_netmask` on the textual part after `/`: prefix
length digits, else dotted netmask or hostmask. -/
def makeNetmaskV4 (mask : List Char) : Except String Nat :=
  match plenFromPlenChars 32 mask with
  | .ok p => .ok p
  | .error _ => plenFromIpCharsV4 mask

/-- CPython `_BaseV6._parse_hextet`; an empty hextet makes Python's
`int(hextet_str, 16)` raise, modelled with the corresponding message. -/
def parseHextet (h : List Char) : Except String Nat :=
  if ¬ h.all isHexDigitChar then
    .error ("Only hex digits permitted in " ++ pyRepr h)
  else if h.length > 4 then
    .error ("At most 4 characters permitted in " ++ pyRepr h)
  else if h.isEmpty then
    .error ("invalid literal for int() with base 16: " ++ pyRepr h)
  else .ok (hexToNat h)

/-- Lowercase hexadecimal digits of a number, no padding: Python `'%x' % n`. -/
def toHexChars (n : Nat) : List Char := Nat.toDigits 16 n

/-- The hextet-accumulation loops at the end of CPython
`_BaseV6._ip_int_from_string`: fold the parts before the `::`, shift over the
skipped zero hextets, fold the parts after. -/
def parseHextetsFill (s : List Char) (hi : List (List Char)) (skipped : Nat)
    (lo : List (List Char)) : Except String Nat :=
  match hi.mapM parseHextet with
  | .error e => .error (e ++ " in " ++ pyRepr s)
  | .ok hs =>
    match lo.mapM parseHextet with
    | .error e => .error (e ++ " in " ++ pyRepr s)
    | .ok ls =>
      .ok (ls.foldl (fun a h => (a <<< 16) ||| h)
        ((hs.foldl (fun a h => (a <<< 16) ||| h) 0) <<< (16 * skipped)))

/-- The `::` analysis of CPython `_BaseV6._ip_int_from_string` on the
colon-separated parts: locate the unique skipped run, validate the endpoints,
and assemble the 128-bit value. -/
def assembleV6 (s : List Char) (parts : List (List Char)) : Except String Nat :=
  let headEmpty := (parts.headD []).isEmpty
  let lastEmpty := (parts.getLastD []).isEmpty
  let interior := (parts.drop 1).dropLast
  let skipCount := (interior.filter List.isEmpty).length
  if skipCount ≥ 2 then
    .error ("At most one " ++ squote ++ "::" ++ squote ++ " permitted in " ++ pyRepr s)
  else if skipCount = 1 then
    let skIdx := 1 + interior.findIdx List.isEmpty
    let ph0 := skIdx
    let pl0 := parts.length - skIdx - 1
    if headEmpty ∧ ph0 - 1 ≠ 0 then
      .error ("Leading " ++ squote ++ ":" ++ squote ++ " only permitted as part of " ++
        squote ++ "::" ++ squote ++ " in " ++ pyRepr s)
    else if lastEmpty ∧ pl0 - 1 ≠ 0 then
      .error ("Trailing " ++ squote ++ ":" ++ squote ++ " only permitted as part of " ++
        squote ++ "::" ++ squote ++ " in " ++ pyRepr s)
    else
      let ph := if headEmpty then ph0 - 1 else ph0
      let pl := if lastEmpty then pl0 - 1 else pl0
      if ph + pl ≥ 8 then
        .error ("Expected at most 7 other parts with " ++ squote ++ "::" ++ squote ++
          " in " ++ pyRepr s)
      else
        parseHextetsFill s (parts.take ph) (8 - (ph + pl)) (parts.drop (parts.length - pl))
  else
    if parts.length ≠ 8 then
      .error ("Exactly 8 parts expected without " ++ squote ++ "::" ++ squote ++
        " in " ++ pyRepr s)
    else if headEmpty then
      .error ("Leading " ++ squote ++ ":" ++ squote ++ " only permitted as part of " ++
        squote ++ "::" ++ squote ++ " in " ++ pyRepr s)
    else if lastEmpty then
      .error ("Trailing " ++ squote ++ ":" ++ squote ++ " only permitted as part of " ++
        squote ++ "::" ++ squote ++ " in " ++ pyRepr s)
    else parseHextetsFill s parts 0 []

/-- CPython `_BaseV6._ip_int_from_string`; the embedded-IPv4 shorthand in the
last part is replaced by the two hextets it denotes, written back in lowercase
hex exactly as CPython does before re-parsing them. -/
def ipv6IntFromChars (s : List Char) : Except String Nat :=
  if s.isEmpty then .error "Address cannot be empty"
  else
    let parts := splitOnChar ':' s
    if parts.length < 3 then .error ("At least 3 parts expected in " ++ pyRepr s)
    else if '.' ∈ parts.getLastD [] then
      match ipv4IntFromChars (parts.getLastD []) with
      | .error e => .error (e ++ " in " ++ pyRepr s)
      | .ok v4 =>
        let parts2 := parts.dropLast ++
          [toHexChars ((v4 >>> 16) &&& 65535), toHexChars (v4 &&& 65535)]
        if parts2.length > 9 then .error ("At most 8 colons permitted in " ++ pyRepr s)
        else assembleV6 s parts2
    else
      if parts.length > 9 then .error ("At most 8 colons permitted in " ++ pyRepr s)
      else assembleV6 s parts

/-- CPython `IPv6Address._split_scope_id`: split a `%zone` suffix off the
address text, rejecting empty zones and further `%` characters. -/
def splitScopeId (s : List Char) : Except String (List Char × Option (List Char)) :=
  if '%' ∈ s then
    let addr := s.takeWhile (· ≠ '%')
    let scope := (s.dropWhile (· ≠ '%')).drop 1
    if scope.isEmpty ∨ '%' ∈ scope then
      .error ("Invalid IPv6 address: \"" ++ pyRepr s ++ "\"")
    else .ok (addr, some scope)
  else .ok (s, none)

/-- Address width in bits of a family (`_max_prefixlen`): 32 for version 4,
128 for version 6. -/
def familyBits (version : Nat) : Nat := if version = 4 then 32 else 128

/-- CPython `_ip_int_from_prefix`: the netmask integer of a prefix length, as
`_ALL_ONES ^ (_ALL_ONES >> prefixlen)`. -/
def netmaskOf (bits p : Nat) : Nat := (2 ^ bits - 1) ^^^ ((2 ^ bits - 1) >>> p)

/-- A parsed network: CPython `IPv4Network`/`IPv6Network` restricted to the
fields the program reads.  `plen` is Python's `prefixlen`; `scope` is the IPv6
zone id of the original address text (always `none` for IPv4). -/
structure IPNetwork where
  version : Nat
  networkAddress : Nat
  plen : Nat
  scope : Option String
deriving DecidableEq

/-- The family's address width in bits (`_max_prefixlen`). -/
def IPNetwork.maxPlen (n : IPNetwork) : Nat := familyBits n.version

/-- `_ALL_ONES` of the family. -/
def IPNetwork.allOnes (n : IPNetwork) : Nat := 2 ^ n.maxPlen - 1

/-- CPython `netmask` of the network. -/
def IPNetwork.netmaskInt (n : IPNetwork) : Nat := netmaskOf n.maxPlen n.plen

/-- CPython `_BaseNetwork.hostmask`. -/
def IPNetwork.hostmaskInt (n : IPNetwork) : Nat := n.netmaskInt ^^^ n.allOnes

/-- CPython `_BaseNetwork.broadcast_address`. -/
def IPNetwork.broadcastInt (n : IPNetwork) : Nat := n.networkAddress ||| n.hostmaskInt

/-- The `strict=False` branch of the network constructors: keep the parsed
address when it already is the network address, otherwise mask the host bits
down to zero. -/
def mkNetwork (version ip p : Nat) (scope : Option String) : IPNetwork :=
  if ip &&& netmaskOf (familyBits version) p = ip then ⟨version, ip, p, scope⟩
  else ⟨version, ip &&& netmaskOf (familyBits version) p, p, scope⟩

/-- CPython `IPv4Network(s, strict=False)` from a string: optional `/mask`
suffix (default prefix length 32), address parsed first. -/
def ipv4NetworkFromString (s : String) : Except String IPNetwork :=
  let parts := splitOnChar '/' s.toList
  if parts.length > 2 then
    .error ("Only one " ++ squote ++ "/" ++ squote ++ " permitted in " ++ pyRepr s.toList)
  else
    match parts with
    | [a] =>
      match ipv4IntFromChars a with
      | .error e => .error e
      | .ok ip => .ok (mkNetwork 4 ip 32 none)
    | [a, m] =>
      match ipv4IntFromChars a with
      | .error e => .error e
      | .ok ip =>
        match makeNetmaskV4 m with
        | .error e => .error e
        | .ok p => .ok (mkNetwork 4 ip p none)
    | _ => .error "unreachable: a split yields one or two parts here"

/-- CPython `IPv6Network(s, strict=False)` from a string: optional `/mask`
suffix (default prefix length 128), only numeric prefix lengths, scope ids
accepted on the address text. -/
def ipv6NetworkFromString (s : String) : Except String IPNetwork :=
  let parts := splitOnChar '/' s.toList
  if parts.length > 2 then
    .error ("Only one " ++ squote ++ "/" ++ squote ++ " permitted in " ++ pyRepr s.toList)
  else
    match parts with
    | [a] =>
      match splitScopeId a with
      | .error e => .error e
      | .ok (addr, sc) =>
        match ipv6IntFromChars addr with
        | .error e => .error e
        | .ok ip => .ok (mkNetwork 6 ip 128 (sc.map String.mk))
    | [a, m] =>
      match splitScopeId a with
      | .error e => .error e
      | .ok (addr, sc) =>
        match ipv6IntFromChars addr with
        | .error e => .error e
        | .ok ip =>
          match plenFromPlenChars 128 m with
          | .error e => .error e
          | .ok p => .ok (mkNetwork 6 ip p (sc.map String.mk))
    | _ => .error "unreachable: a split yields one or two parts here"

/-- CPython `ipaddress.ip_network(s, strict=False)` on a string: try IPv4,
then IPv6; both families' specific errors are caught and replaced by the one
generic `ValueError` text, exactly as in CPython. -/
def ip_network (s : String) : Except String IPNetwork :=
  match ipv4NetworkFromString s with
  | .ok n => .ok n
  | .error _ =>
    match ipv6NetworkFromString s with
    | .ok n => .ok n
    | .error _ =>
      .error (pyRepr s.toList ++ " does not appear to be an IPv4 or IPv6 network")

/-- CPython `_BaseNetwork.__iter__` materialised: every address of the block
in ascending order. -/
def iterList (n : IPNetwork) : List Nat :=
  List.range' n.networkAddress (n.broadcastInt + 1 - n.networkAddress)

/-- CPython `hosts()` as materialised by `list(...)` on Python 3.11: the
constructors override it with all addresses for prefix length
`maxPlen - 1` and with the single self address for `maxPlen`; otherwise IPv4
excludes network and broadcast and IPv6 excludes only the network address. -/
def hostsList (n : IPNetwork) : List Nat :=
  if n.plen = n.maxPlen - 1 then iterList n
  else if n.plen = n.maxPlen then [n.networkAddress]
  else if n.version = 4 then
    List.range' (n.networkAddress + 1) (n.broadcastInt - (n.networkAddress + 1))
  else
    List.range' (n.networkAddress + 1) (n.broadcastInt + 1 - (n.networkAddress + 1))

/-- CPython `_BaseV4._string_from_ip_int`: dotted decimal rendering. -/
def strV4 (x : Nat) : String :=
  toString ((x >>> 24) % 256) ++ "." ++ toString ((x >>> 16) % 256) ++ "." ++
    toString ((x >>> 8) % 256) ++ "." ++ toString (x % 256)

/-- The eight hextet strings of the `'%032x'` slicing in CPython
`_BaseV6._string_from_ip_int`. -/
def v6Hextets (x : Nat) : List String :=
  (List.range 8).map (fun i => String.mk (toHexChars ((x >>> (16 * (7 - i))) % 65536)))

/-- The zero-run scan of CPython `_BaseV6._compress_hextets`
(`best_doublecolon_start`/`len`, first longest run wins). -/
def findZeroRun : List String → Nat → Nat → Nat → Nat → Nat × Nat
  | [], _, _, bestStart, bestLen => (bestStart, bestLen)
  | h :: t, idx, curLen, bestStart, bestLen =>
    if h = "0" then
      let cur := curLen + 1
      if cur > bestLen then findZeroRun t (idx + 1) cur (idx + 1 - cur) cur
      else findZeroRun t (idx + 1) cur bestStart bestLen
    else findZeroRun t (idx + 1) 0 bestStart bestLen

/-- CPython `_BaseV6._compress_hextets`: replace the longest zero run of
length at least 2 with an empty piece, padding the ends for a leading or
trailing `::`. -/
def compressHextets (hextets : List String) : List String :=
  let best := findZeroRun hextets 0 0 0 0
  if best.2 > 1 then
    let e := best.1 + best.2
    let hx := if e = hextets.length then hextets ++ [""] else hextets
    let hx2 := hx.take best.1 ++ [""] ++ hx.drop e
    if best.1 = 0 then "" :: hx2 else hx2
  else hextets

/-- CPython `_BaseV6._string_from_ip_int`: compressed lowercase-hex colon
notation. -/
def strV6 (x : Nat) : String := String.intercalate ":" (compressHextets (v6Hextets x))

/-- Python `str()` of one enumerated address of a network.  Only the single
self-host of a maximal-prefix-length IPv6 network carries a scope id, because
only there CPython re-uses the original (scoped) address object; every other
enumerated address is rebuilt from its integer with no scope. -/
def renderHost (n : IPNetwork) (x : Nat) : String :=
  if n.version = 4 then strV4 x
  else
    match (if n.plen = n.maxPlen then n.scope else none) with
    | some sc => strV6 x ++ "%" ++ sc
    | none => strV6 x

/-- One row of the mapping table built at lines 27-32 of `app.py`. -/
structure MappingEntry where
  DMZ_IP : String
  Internal_IP : String
deriving DecidableEq

/-- Lines 17-24 of `app.py`: the two enumerations that get zipped, with the
all-addresses fallback taken when the DMZ host list is empty. -/
def enumLists (dmz internal : IPNetwork) : List Nat × List Nat :=
  let dmz_ips := hostsList dmz
  let internal_ips := hostsList internal
  if dmz_ips = [] then (iterList dmz, iterList internal) else (dmz_ips, internal_ips)

/-- The integer pairs underlying the mapping table (`zip(dmz_ips,
internal_ips)` of `app.py`). -/
def mappingInts (dmz internal : IPNetwork) : List (Nat × Nat) :=
  (enumLists dmz internal).1.zip (enumLists dmz internal).2

/-- `generate_nat_mapping` of `app.py`: returns the `(mappings, error)` pair,
with every `ValueError` of parsing recovered as data; the catch-all
`except Exception` branch is unreachable in this pure model. -/
def generate_nat_mapping (dmz_range internal_range : String) :
    Option (List MappingEntry) × Option String :=
  match ip_network dmz_range with
  | .error e => (none, some ("❌ ERROR: Invalid IP format - " ++ e))
  | .ok dmz_network =>
    match ip_network internal_range with
    | .error e => (none, some ("❌ ERROR: Invalid IP format - " ++ e))
    | .ok internal_network =>
      if dmz_network.plen ≠ internal_network.plen then
        (none, some ("❌ ERROR: Subnet masks must be identical! DMZ: /" ++
          toString dmz_network.plen ++ ", Internal: /" ++ toString internal_network.plen))
      else
        (some ((mappingInts dmz_network internal_network).map
          (fun q => ⟨renderHost dmz_network q.1, renderHost internal_network q.2⟩)),
         none)

/-! Arithmetic facts about masks, derived from the bit-level definitions. -/

/-- Shifting the all-ones word right by `p` leaves the low `b - p` ones. -/
theorem allOnes_shiftRight (b p : Nat) (hp : p ≤ b) :
    (2 ^ b - 1) >>> p = 2 ^ (b - p) - 1 := by
  rw [Nat.shiftRight_eq_div_pow]
  have hA : 1 ≤ 2 ^ p := Nat.one_le_two_pow
  have hB : 1 ≤ 2 ^ (b - p) := Nat.one_le_two_pow
  have hAB : 2 ^ p * 2 ^ (b - p) = 2 ^ b := by
    rw [← pow_add]; congr 1; omega
  have hmul : 2 ^ p * (2 ^ (b - p) - 1) = 2 ^ p * 2 ^ (b - p) - 2 ^ p :=
    Nat.mul_sub_one _ _
  have hpb : 2 ^ p ≤ 2 ^ b := Nat.pow_le_pow_right (by omega) hp
  have hsplit : 2 ^ b - 1 = 2 ^ p * (2 ^ (b - p) - 1) + (2 ^ p - 1) := by
    rw [hmul, hAB]; omega
  rw [hsplit, Nat.mul_add_div (show 2 ^ p > 0 by omega),
    Nat.div_eq_of_lt (show 2 ^ p - 1 < 2 ^ p by omega)]
  omega

/-- The netmask and the low `k` host bits are disjoint. -/
theorem netmask_and_low (b k : Nat) (hk : k ≤ b) :
    ((2 ^ b - 1) ^^^ (2 ^ k - 1)) &&& (2 ^ k - 1) = 0 := by
  apply Nat.eq_of_testBit_eq
  intro i
  simp only [Nat.testBit_and, Nat.testBit_xor, Nat.testBit_two_pow_sub_one,
    Nat.zero_testBit]
  by_cases h : i < k
  · have hb : i < b := lt_of_lt_of_le h hk
    simp [h, hb]
  · simp [h]

/-- Masking any word with the netmask clears the `b - p` host bits. -/
theorem masked_mod (b p x : Nat) (hp : p ≤ b) :
    (x &&& netmaskOf b p) % 2 ^ (b - p) = 0 := by
  rw [netmaskOf, allOnes_shiftRight b p hp, ← Nat.and_pow_two_sub_one_eq_mod,
    Nat.and_assoc, netmask_and_low b (b - p) (by omega), Nat.and_zero]

/-! Structural facts about parsed networks. -/

/-- The invariant every network built by the constructors satisfies: a known
family, a prefix length within the family's width, and no host bits set in
the network address. -/
def goodNetwork (n : IPNetwork) : Prop :=
  (n.version = 4 ∨ n.version = 6) ∧ n.plen ≤ n.maxPlen ∧
    n.networkAddress % 2 ^ (n.maxPlen - n.plen) = 0

theorem mkNetwork_version (v ip p : Nat) (sc : Option String) :
    (mkNetwork v ip p sc).version = v := by
  unfold mkNetwork; split <;> rfl

theorem mkNetwork_plen (v ip p : Nat) (sc : Option String) :
    (mkNetwork v ip p sc).plen = p := by
  unfold mkNetwork; split <;> rfl

theorem mkNetwork_scope (v ip p : Nat) (sc : Option String) :
    (mkNetwork v ip p sc).scope = sc := by
  unfold mkNetwork; split <;> rfl

theorem mkNetwork_networkAddress (v ip p : Nat) (sc : Option String) :
    (mkNetwork v ip p sc).networkAddress = ip &&& netmaskOf (familyBits v) p := by
  unfold mkNetwork
  split
  · next h => exact h.symm
  · rfl

theorem mkNetwork_good (v ip p : Nat) (sc : Option String)
    (hv : v = 4 ∨ v = 6) (hp : p ≤ familyBits v) :
    goodNetwork (mkNetwork v ip p sc) := by
  have hmax : (mkNetwork v ip p sc).maxPlen = familyBits v := by
    unfold IPNetwork.maxPlen; rw [mkNetwork_version]
  refine ⟨by rw [mkNetwork_version]; exact hv, ?_, ?_⟩
  · rw [mkNetwork_plen, hmax]; exact hp
  · rw [mkNetwork_networkAddress, hmax, mkNetwork_plen]
    exact masked_mod _ p ip hp

theorem plenFromPlenChars_le {maxPlen : Nat} {s : List Char} {p : Nat}
    (h : plenFromPlenChars maxPlen s = .ok p) : p ≤ maxPlen := by
  simp only [plenFromPlenChars] at h
  split at h
  · exact absurd h (by simp)
  · split at h
    · cases h; assumption
    · exact absurd h (by simp)

theorem plenFromIpInt_le {maxPlen ip p : Nat}
    (h : plenFromIpInt maxPlen ip = some p) : p ≤ maxPlen := by
  simp only [plenFromIpInt] at h
  split at h
  · cases h; exact Nat.sub_le _ _
  · exact absurd h (by simp)

theorem plenFromIpCharsV4_le {s : List Char} {p : Nat}
    (h : plenFromIpCharsV4 s = .ok p) : p ≤ 32 := by
  unfold plenFromIpCharsV4 at h
  split at h
  · exact absurd h (by simp)
  · split at h
    · next heq => cases h; exact plenFromIpInt_le heq
    · split at h
      · next heq => cases h; exact plenFromIpInt_le heq
      · exact absurd h (by simp)

theorem makeNetmaskV4_le {m : List Char} {p : Nat}
    (h : makeNetmaskV4 m = .ok p) : p ≤ 32 := by
  unfold makeNetmaskV4 at h
  split at h
  · next heq => cases h; exact plenFromPlenChars_le heq
  · exact plenFromIpCharsV4_le h

theorem ipv4NetworkFromString_ok {s : String} {n : IPNetwork}
    (h : ipv4NetworkFromString s = .ok n) :
    ∃ ip p, p ≤ 32 ∧ n = mkNetwork 4 ip p none := by
  simp only [ipv4NetworkFromString] at h
  split at h
  · exact absurd h (by simp)
  · split at h
    · split at h
      · exact absurd h (by simp)
      · cases h; exact ⟨_, 32, by omega, rfl⟩
    · split at h
      · exact absurd h (by simp)
      · split at h
        · exact absurd h (by simp)
        · next hm => cases h; exact ⟨_, _, makeNetmaskV4_le hm, rfl⟩
    · exact absurd h (by simp)

theorem ipv6NetworkFromString_ok {s : String} {n : IPNetwork}
    (h : ipv6NetworkFromString s = .ok n) :
    ∃ ip p sc, p ≤ 128 ∧ n = mkNetwork 6 ip p sc := by
  simp only [ipv6NetworkFromString] at h
  split at h
  · exact absurd h (by simp)
  · split at h
    · split at h
      · exact absurd h (by simp)
      · split at h
        · exact absurd h (by simp)
        · cases h; exact ⟨_, 128, _, by omega, rfl⟩
    · split at h
      · exact absurd h (by simp)
      · split at h
        · exact absurd h (by simp)
        · split at h
          · exact absurd h (by simp)
          · next hm => cases h; exact ⟨_, _, _, plenFromPlenChars_le hm, rfl⟩
    · exact absurd h (by simp)

/-- Every network `ip_network` returns satisfies the invariant. -/
theorem ip_network_good {s : String} {n : IPNetwork}
    (h : ip_network s = .ok n) : goodNetwork n := by
  unfold ip_network at h
  split at h
  · next h4 =>
    cases h
    obtain ⟨ip, p, hp, rfl⟩ := ipv4NetworkFromString_ok h4
    exact mkNetwork_good 4 ip p none (Or.inl rfl) hp
  · split at h
    · next h6 =>
      cases h
      obtain ⟨ip, p, sc, hp, rfl⟩ := ipv6NetworkFromString_ok h6
      exact mkNetwork_good 6 ip p sc (Or.inr rfl) hp
    · exact absurd h (by simp)

theorem maxPlen_cases {n : IPNetwork} (h : goodNetwork n) :
    n.maxPlen = 32 ∨ n.maxPlen = 128 := by
  unfold IPNetwork.maxPlen familyBits
  rcases h.1 with h4 | h6
  · left; simp [h4]
  · right; simp [h6]

/-- The broadcast address is the network address plus the host span. -/
theorem broadcastInt_eq {n : IPNetwork} (h : goodNetwork n) :
    n.broadcastInt = n.networkAddress + (2 ^ (n.maxPlen - n.plen) - 1) := by
  have hpos := Nat.two_pow_pos (n.maxPlen - n.plen)
  have hxor : ∀ a x : Nat, (a ^^^ x) ^^^ a = x := fun a x => by
    rw [Nat.xor_comm a x, Nat.xor_assoc, Nat.xor_self, Nat.xor_zero]
  have hhm : n.hostmaskInt = 2 ^ (n.maxPlen - n.plen) - 1 := by
    unfold IPNetwork.hostmaskInt IPNetwork.netmaskInt netmaskOf IPNetwork.allOnes
    rw [hxor, allOnes_shiftRight _ _ h.2.1]
  unfold IPNetwork.broadcastInt
  rw [hhm]
  obtain ⟨q, hq⟩ := Nat.dvd_of_mod_eq_zero h.2.2
  rw [hq]
  exact (Nat.mul_add_lt_is_or
    (show 2 ^ (n.maxPlen - n.plen) - 1 < 2 ^ (n.maxPlen - n.plen) by omega) q).symm

/-- Common shape of the two enumerations: starting offset inside the block. -/
def hostOffset (n : IPNetwork) : Nat :=
  if n.plen = n.maxPlen - 1 ∨ n.plen = n.maxPlen then 0 else 1

/-- Common shape of the two enumerations: number of enumerated addresses,
a function of family and prefix length only. -/
def hostCount (n : IPNetwork) : Nat :=
  if n.plen = n.maxPlen - 1 then 2
  else if n.plen = n.maxPlen then 1
  else if n.version = 4 then 2 ^ (n.maxPlen - n.plen) - 2
  else 2 ^ (n.maxPlen - n.plen) - 1

theorem iterList_eq {n : IPNetwork} (h : goodNetwork n) :
    iterList n = List.range' n.networkAddress (2 ^ (n.maxPlen - n.plen)) := by
  have hpos := Nat.two_pow_pos (n.maxPlen - n.plen)
  unfold iterList
  rw [broadcastInt_eq h]
  congr 1
  omega

theorem hostsList_eq {n : IPNetwork} (h : goodNetwork n) :
    hostsList n = List.range' (n.networkAddress + hostOffset n) (hostCount n) := by
  have hmax := maxPlen_cases h
  have hpos := Nat.two_pow_pos (n.maxPlen - n.plen)
  by_cases h1 : n.plen = n.maxPlen - 1
  · have hoff : hostOffset n = 0 := by unfold hostOffset; rw [if_pos (Or.inl h1)]
    have hcnt : hostCount n = 2 := by unfold hostCount; rw [if_pos h1]
    have hk : n.maxPlen - n.plen = 1 := by omega
    rw [hoff, hcnt, Nat.add_zero]
    unfold hostsList
    rw [if_pos h1, iterList_eq h, hk]
    norm_num
  · by_cases h2 : n.plen = n.maxPlen
    · have hoff : hostOffset n = 0 := by unfold hostOffset; rw [if_pos (Or.inr h2)]
      have hcnt : hostCount n = 1 := by unfold hostCount; rw [if_neg h1, if_pos h2]
      rw [hoff, hcnt, Nat.add_zero]
      unfold hostsList
      rw [if_neg h1, if_pos h2]
      rfl
    · have hoff : hostOffset n = 1 := by
        unfold hostOffset
        rw [if_neg (by tauto)]
      by_cases hv : n.version = 4
      · have hcnt : hostCount n = 2 ^ (n.maxPlen - n.plen) - 2 := by
          unfold hostCount; rw [if_neg h1, if_neg h2, if_pos hv]
        rw [hoff, hcnt]
        unfold hostsList
        rw [if_neg h1, if_neg h2, if_pos hv, broadcastInt_eq h]
        congr 1
        omega
      · have hcnt : hostCount n = 2 ^ (n.maxPlen - n.plen) - 1 := by
          unfold hostCount; rw [if_neg h1, if_neg h2, if_neg hv]
        rw [hoff, hcnt]
        unfold hostsList
        rw [if_neg h1, if_neg h2, if_neg hv, broadcastInt_eq h]
        congr 1
        omega

theorem hostCount_pos {n : IPNetwork} (h : goodNetwork n) : 0 < hostCount n := by
  have hp := h.2.1
  unfold hostCount
  by_cases h1 : n.plen = n.maxPlen - 1
  · rw [if_pos h1]; omega
  · by_cases h2 : n.plen = n.maxPlen
    · rw [if_neg h1, if_pos h2]; omega
    · rcases maxPlen_cases h with hm | hm
      all_goals
        have hk : 2 ≤ n.maxPlen - n.plen := by omega
      all_goals
        have h4 : (4 : Nat) ≤ 2 ^ (n.maxPlen - n.plen) := by
          calc (4 : Nat) = 2 ^ 2 := rfl
          _ ≤ 2 ^ (n.maxPlen - n.plen) := Nat.pow_le_pow_right (by omega) hk
      all_goals rw [if_neg h1, if_neg h2]
      all_goals split <;> omega

theorem hostsList_ne_nil {n : IPNetwork} (h : goodNetwork n) : hostsList n ≠ [] := by
  rw [hostsList_eq h]
  have := hostCount_pos h
  intro hc
  have hlen := congrArg List.length hc
  simp at hlen
  omega

/-- With two well-formed networks the fallback test of line 22 of `app.py` is
never taken on Python 3.11: the host list is never empty. -/
theorem enumLists_eq {d i : IPNetwork} (hd : goodNetwork d) :
    enumLists d i = (hostsList d, hostsList i) := by
  unfold enumLists
  rw [if_neg (hostsList_ne_nil hd)]

/-! List facts for the zipped enumerations. -/

theorem map_fst_zip_take (l1 : List Nat) (l2 : List Nat) :
    (l1.zip l2).map Prod.fst = l1.take l2.length := by
  induction l1 generalizing l2 with
  | nil => simp
  | cons a as ih =>
    cases l2 with
    | nil => simp
    | cons b bs => simp [ih]

theorem map_snd_zip_take (l1 : List Nat) (l2 : List Nat) :
    (l1.zip l2).map Prod.snd = l2.take l1.length := by
  induction l1 generalizing l2 with
  | nil => simp
  | cons a as ih =>
    cases l2 with
    | nil => simp
    | cons b bs => simp [ih]

theorem zip_get_eq (l1 l2 : List Nat) (i : Nat) (hi : i < (l1.zip l2).length) :
    ∃ (h1 : i < l1.length) (h2 : i < l2.length),
      (l1.zip l2).get ⟨i, hi⟩ = (l1.get ⟨i, h1⟩, l2.get ⟨i, h2⟩) := by
  induction l1 generalizing l2 i with
  | nil => simp at hi
  | cons a as ih =>
    cases l2 with
    | nil => simp at hi
    | cons b bs =>
      cases i with
      | zero => exact ⟨by simp, by simp, rfl⟩
      | succ j =>
        have hj : j < (as.zip bs).length := by
          simp [List.length_zip] at hi ⊢
          omega
        obtain ⟨h1, h2, heq⟩ := ih bs j hj
        refine ⟨Nat.succ_lt_succ h1, Nat.succ_lt_succ h2, ?_⟩
        simp [heq]

/-! Unfolding lemmas for `generate_nat_mapping`. -/

theorem generate_eq_of_ok {s t : String} {ns nt : IPNetwork}
    (hs : ip_network s = .ok ns) (ht : ip_network t = .ok nt)
    (hpl : ns.plen = nt.plen) :
    generate_nat_mapping s t =
      (some ((mappingInts ns nt).map
        (fun q => ⟨renderHost ns q.1, renderHost nt q.2⟩)), none) := by
  unfold generate_nat_mapping
  rw [hs, ht]
  simp [hpl]

theorem generate_eq_of_mismatch {s t : String} {ns nt : IPNetwork}
    (hs : ip_network s = .ok ns) (ht : ip_network t = .ok nt)
    (hpl : ns.plen ≠ nt.plen) :
    generate_nat_mapping s t =
      (none, some ("❌ ERROR: Subnet masks must be identical! DMZ: /" ++
        toString ns.plen ++ ", Internal: /" ++ toString nt.plen)) := by
  unfold generate_nat_mapping
  rw [hs, ht]
  simp [hpl]

theorem generate_eq_of_errFst {s t : String} {e : String}
    (hs : ip_network s = .error e) :
    generate_nat_mapping s t = (none, some ("❌ ERROR: Invalid IP format - " ++ e)) := by
  unfold generate_nat_mapping
  rw [hs]

theorem generate_eq_of_errSnd {s t : String} {ns : IPNetwork} {e : String}
    (hs : ip_network s = .ok ns) (ht : ip_network t = .error e) :
    generate_nat_mapping s t = (none, some ("❌ ERROR: Invalid IP format - " ++ e)) := by
  unfold generate_nat_mapping
  rw [hs, ht]

theorem success_plen_eq {s t : String} {ns nt : IPNetwork} {es : List MappingEntry}
    (hs : ip_network s = .ok ns) (ht : ip_network t = .ok nt)
    (hgen : generate_nat_mapping s t = (some es, none)) : ns.plen = nt.plen := by
  by_contra hne
  rw [generate_eq_of_mismatch hs ht hne] at hgen
  simp at hgen

theorem success_entries {s t : String} {ns nt : IPNetwork} {es : List MappingEntry}
    (hs : ip_network s = .ok ns) (ht : ip_network t = .ok nt)
    (hgen : generate_nat_mapping s t = (some es, none)) :
    es = (mappingInts ns nt).map
      (fun q => ⟨renderHost ns q.1, renderHost nt q.2⟩) := by
  rw [generate_eq_of_ok hs ht (success_plen_eq hs ht hgen)] at hgen
  simp at hgen
  exact hgen.symm

theorem mappingInts_length {d i : IPNetwork} (hd : goodNetwork d) (hi : goodNetwork i) :
    (mappingInts d i).length = min (hostCount d) (hostCount i) := by
  unfold mappingInts
  rw [enumLists_eq hd]
  simp [List.length_zip, hostsList_eq hd, hostsList_eq hi]

theorem splitOnChar_of_not_mem {sep : Char} {l : List Char} (h : sep ∉ l) :
    splitOnChar sep l = [l] := by
  induction l with
  | nil => rfl
  | cons c cs ih =>
    have hc : ¬ c = sep := fun hh => h (hh ▸ List.mem_cons_self c cs)
    have hcs : sep ∉ cs := fun hh => h (List.mem_cons_of_mem c hh)
    simp only [splitOnChar]
    rw [if_neg hc, ih hcs]

/-! The claims. -/

/-- C1: for every pair of parseable IPv4 CIDR inputs with the same prefix
length `N`, `generate_nat_mapping` succeeds and returns exactly
`2 ^ (32 - N) - 2` entries when `N ≤ 30` (the host subset) and exactly
`2 ^ (32 - N)` entries when `N ∈ {31, 32}` (all addresses). -/
theorem claim1_cardinality {s t : String} {ns nt : IPNetwork}
    (hs : ip_network s = .ok ns) (ht : ip_network t = .ok nt)
    (hvs : ns.version = 4) (hvt : nt.version = 4) (hpl : ns.plen = nt.plen) :
    ∃ es, generate_nat_mapping s t = (some es, none) ∧
      (ns.plen ≤ 30 → es.length = 2 ^ (32 - ns.plen) - 2) ∧
      (31 ≤ ns.plen → es.length = 2 ^ (32 - ns.plen)) := by
  have hgs := ip_network_good hs
  have hgt := ip_network_good ht
  have hmaxs : ns.maxPlen = 32 := by simp [IPNetwork.maxPlen, familyBits, hvs]
  have hmaxt : nt.maxPlen = 32 := by simp [IPNetwork.maxPlen, familyBits, hvt]
  have hps : ns.plen ≤ 32 := hmaxs ▸ hgs.2.1
  have hceq : hostCount ns = hostCount nt := by
    unfold hostCount
    rw [hmaxs, hmaxt, hpl, hvs, hvt]
  have hlen : ((mappingInts ns nt).map
      (fun q => (⟨renderHost ns q.1, renderHost nt q.2⟩ : MappingEntry))).length
      = hostCount ns := by
    rw [List.length_map, mappingInts_length hgs hgt, hceq, Nat.min_self]
  refine ⟨_, generate_eq_of_ok hs ht hpl, ?_, ?_⟩
  · intro h30
    rw [hlen]
    unfold hostCount
    rw [hmaxs, hvs, if_neg (by omega), if_neg (by omega), if_pos rfl]
  · intro h31
    rw [hlen]
    unfold hostCount
    rw [hmaxs]
    by_cases he : ns.plen = 31
    · rw [if_pos (by omega), he]
      norm_num
    · have he2 : ns.plen = 32 := by omega
      rw [if_neg (by omega), if_pos he2, he2]
      norm_num

/-- C2: for every pair of parseable inputs whose prefix lengths differ, the
result is the mismatch failure, whose message spells both observed prefix
lengths, and carries no mapping entries. -/
theorem claim2_prefix_mismatch {s t : String} {ns nt : IPNetwork}
    (hs : ip_network s = .ok ns) (ht : ip_network t = .ok nt)
    (hne : ns.plen ≠ nt.plen) :
    generate_nat_mapping s t =
      (none, some ("❌ ERROR: Subnet masks must be identical! DMZ: /" ++
        toString ns.plen ++ ", Internal: /" ++ toString nt.plen)) ∧
    ∃ msg pre mid, (generate_nat_mapping s t).2 = some msg ∧
      msg = pre ++ toString ns.plen ++ mid ++ toString nt.plen := by
  have h := generate_eq_of_mismatch hs ht hne
  refine ⟨h, "❌ ERROR: Subnet masks must be identical! DMZ: /" ++
      toString ns.plen ++ ", Internal: /" ++ toString nt.plen,
    "❌ ERROR: Subnet masks must be identical! DMZ: /", ", Internal: /", ?_, rfl⟩
  rw [h]

/-- C6: parsing is loose: the parsed network address has its host bits masked
to zero (never a rejection), and any two input texts that parse to the same
network produce exactly the same mapping against any other input. -/
theorem claim6_loose_parsing {s : String} {n : IPNetwork}
    (h : ip_network s = .ok n) :
    n.networkAddress % 2 ^ (n.maxPlen - n.plen) = 0 ∧
    ∀ s2 t : String, ip_network s2 = .ok n →
      generate_nat_mapping s t = generate_nat_mapping s2 t := by
  refine ⟨(ip_network_good h).2.2, ?_⟩
  intro s2 t h2
  unfold generate_nat_mapping
  rw [h, h2]

/-- C7: for every pair of parseable inputs with equal prefix lengths the call
succeeds and the number of entries is the minimum of the two enumerations'
lengths: positional zipping truncates, it never errors and never pads. -/
theorem claim7_zip_truncation {s t : String} {ns nt : IPNetwork}
    (hs : ip_network s = .ok ns) (ht : ip_network t = .ok nt)
    (hpl : ns.plen = nt.plen) :
    ∃ es, generate_nat_mapping s t = (some es, none) ∧
      es.length = min (enumLists ns nt).1.length (enumLists ns nt).2.length := by
  refine ⟨_, generate_eq_of_ok hs ht hpl, ?_⟩
  simp [mappingInts, List.length_zip]

/-- C8: every call returns exactly one of success-with-entries or
failure-with-message, never both and never neither; all parse failures are
recovered as data. -/
theorem claim8_total_result (s t : String) :
    ((∃ es, generate_nat_mapping s t = (some es, none)) ∨
      (∃ m, generate_nat_mapping s t = (none, some m))) ∧
    ¬ ((∃ es, (generate_nat_mapping s t).1 = some es) ∧
      (∃ m, (generate_nat_mapping s t).2 = some m)) := by
  have halt : (∃ es, generate_nat_mapping s t = (some es, none)) ∨
      (∃ m, generate_nat_mapping s t = (none, some m)) := by
    cases hs : ip_network s with
    | error e => exact Or.inr ⟨_, generate_eq_of_errFst hs⟩
    | ok ns =>
      cases ht : ip_network t with
      | error e => exact Or.inr ⟨_, generate_eq_of_errSnd hs ht⟩
      | ok nt =>
        by_cases hpl : ns.plen = nt.plen
        · exact Or.inl ⟨_, generate_eq_of_ok hs ht hpl⟩
        · exact Or.inr ⟨_, generate_eq_of_mismatch hs ht hpl⟩
  refine ⟨halt, ?_⟩
  rintro ⟨⟨es, h1⟩, ⟨m, h2⟩⟩
  rcases halt with ⟨es2, heq⟩ | ⟨m2, heq⟩
  · rw [heq] at h2; simp at h2
  · rw [heq] at h1; simp at h1

theorem mappingInts_eq_zip {d i : IPNetwork} (hd : goodNetwork d) (hi : goodNetwork i) :
    mappingInts d i =
      (List.range' (d.networkAddress + hostOffset d) (hostCount d)).zip
        (List.range' (i.networkAddress + hostOffset i) (hostCount i)) := by
  unfold mappingInts
  rw [enumLists_eq hd,
    show (hostsList d, hostsList i).1 = hostsList d from rfl,
    show (hostsList d, hostsList i).2 = hostsList i from rfl,
    hostsList_eq hd, hostsList_eq hi]

theorem ipv4NetworkFromString_no_slash {s : String} {n : IPNetwork}
    (hns : ¬ '/' ∈ s.toList) (h : ipv4NetworkFromString s = .ok n) :
    ∃ ip, n = mkNetwork 4 ip 32 none := by
  unfold ipv4NetworkFromString at h
  rw [splitOnChar_of_not_mem hns] at h
  rw [if_neg (by simp)] at h
  replace h : (match ipv4IntFromChars s.toList with
      | .error e => (.error e : Except String IPNetwork)
      | .ok ip => .ok (mkNetwork 4 ip 32 none)) = .ok n := h
  split at h
  · exact absurd h (by simp)
  · cases h; exact ⟨_, rfl⟩

theorem ipv6NetworkFromString_no_slash {s : String} {n : IPNetwork}
    (hns : ¬ '/' ∈ s.toList) (h : ipv6NetworkFromString s = .ok n) :
    ∃ ip sc, n = mkNetwork 6 ip 128 sc := by
  unfold ipv6NetworkFromString at h
  rw [splitOnChar_of_not_mem hns] at h
  rw [if_neg (by simp)] at h
  replace h : (match splitScopeId s.toList with
      | .error e => (.error e : Except String IPNetwork)
      | .ok (addr, sc) =>
        match ipv6IntFromChars addr with
        | .error e => .error e
        | .ok ip => .ok (mkNetwork 6 ip 128 (sc.map String.mk))) = .ok n := h
  split at h
  · exact absurd h (by simp)
  · split at h
    · exact absurd h (by simp)
    · cases h; exact ⟨_, _, rfl⟩

/-- C3 counterexample: an address without the `/prefixLength` suffix is not
rejected; `generate_nat_mapping` accepts both slash-free inputs here and
returns a one-entry mapping instead of an `InvalidAddressFormat` failure. -/
theorem claim3_counterexample :
    generate_nat_mapping "192.168.1.5" "10.0.0.1" =
      (some [⟨"192.168.1.5", "10.0.0.1"⟩], none) := by rfl

/-- C3 (amended): an input that parses but omits the `/prefixLength` suffix is
accepted with the family's maximal prefix length (32 for IPv4, 128 for IPv6)
rather than rejected. -/
theorem claim3_amended_no_slash {s : String} {n : IPNetwork}
    (hns : ¬ '/' ∈ s.toList) (h : ip_network s = .ok n) :
    n.plen = n.maxPlen := by
  unfold ip_network at h
  split at h
  · next h4 =>
    cases h
    obtain ⟨ip, rfl⟩ := ipv4NetworkFromString_no_slash hns h4
    rw [mkNetwork_plen]
    unfold IPNetwork.maxPlen
    rw [mkNetwork_version]
    rfl
  · split at h
    · next h6 =>
      cases h
      obtain ⟨ip, sc, rfl⟩ := ipv6NetworkFromString_no_slash hns h6
      rw [mkNetwork_plen]
      unfold IPNetwork.maxPlen
      rw [mkNetwork_version]
      rfl
    · exact absurd h (by simp)

theorem claim3_amended_witness :
    ¬ '/' ∈ ("192.168.1.5").toList ∧
    (⟨4, 3232235781, 32, none⟩ : IPNetwork).plen =
      (⟨4, 3232235781, 32, none⟩ : IPNetwork).maxPlen :=
  ⟨by decide, claim3_amended_no_slash (by decide)
    (show ip_network "192.168.1.5" = .ok ⟨4, 3232235781, 32, none⟩ from rfl)⟩

/-- C4: the `/31` pair is accepted and enumerates all the addresses of the
block, including the network and all-ones addresses, in ascending order. -/
theorem claim4_slash31 :
    generate_nat_mapping "192.168.1.0/31" "10.0.1.0/31" =
      (some [⟨"192.168.1.0", "10.0.1.0"⟩, ⟨"192.168.1.1", "10.0.1.1"⟩], none) := by rfl

/-- C5: in every successful result the entries render the zipped integer
pairs, whose source components are strictly ascending by integer value, and
likewise the target components. -/
theorem claim5_ordering {s t : String} {ns nt : IPNetwork} {es : List MappingEntry}
    (hs : ip_network s = .ok ns) (ht : ip_network t = .ok nt)
    (hgen : generate_nat_mapping s t = (some es, none)) :
    es = (mappingInts ns nt).map
      (fun q => ⟨renderHost ns q.1, renderHost nt q.2⟩) ∧
    List.Pairwise (· < ·) ((mappingInts ns nt).map Prod.fst) ∧
    List.Pairwise (· < ·) ((mappingInts ns nt).map Prod.snd) := by
  have hgs := ip_network_good hs
  have hgt := ip_network_good ht
  refine ⟨success_entries hs ht hgen, ?_, ?_⟩
  · rw [mappingInts_eq_zip hgs hgt, map_fst_zip_take]
    exact List.Pairwise.sublist (List.take_sublist _ _) (List.pairwise_lt_range' _ _)
  · rw [mappingInts_eq_zip hgs hgt, map_snd_zip_take]
    exact List.Pairwise.sublist (List.take_sublist _ _) (List.pairwise_lt_range' _ _)

theorem claim5_witness :
    generate_nat_mapping "192.168.1.0/30" "10.0.1.0/30" =
      (some [⟨"192.168.1.1", "10.0.1.1"⟩, ⟨"192.168.1.2", "10.0.1.2"⟩], none) ∧
    List.Pairwise (· < ·)
      ((mappingInts ⟨4, 3232235776, 30, none⟩ ⟨4, 167772416, 30, none⟩).map Prod.fst) ∧
    List.Pairwise (· < ·)
      ((mappingInts ⟨4, 3232235776, 30, none⟩ ⟨4, 167772416, 30, none⟩).map Prod.snd) :=
  ⟨rfl, (claim5_ordering
    (show ip_network "192.168.1.0/30" = .ok ⟨4, 3232235776, 30, none⟩ from rfl)
    (show ip_network "10.0.1.0/30" = .ok ⟨4, 167772416, 30, none⟩ from rfl)
    rfl).2⟩

/-- C9: the compatibility check compares only prefix lengths, not families:
an IPv4 `/32` paired with an IPv6 `/32` is not rejected, and the mapping pairs
an IPv4 address with an IPv6 address (truncated by the zip to one entry). -/
theorem claim9_cross_family :
    generate_nat_mapping "1.2.3.4/32" "abcd::/32" =
      (some [⟨"1.2.3.4", "abcd::1"⟩], none) := by
  have hs : ip_network "1.2.3.4/32" = .ok ⟨4, 16909060, 32, none⟩ := rfl
  have ht : ip_network "abcd::/32" =
      .ok ⟨6, 228362408135220253930399759055429042176, 32, none⟩ := rfl
  rw [generate_eq_of_ok hs ht rfl]
  have hd : hostsList ⟨4, 16909060, 32, none⟩ = [16909060] := rfl
  have hi6 : hostsList ⟨6, 228362408135220253930399759055429042176, 32, none⟩ =
      List.range' 228362408135220253930399759055429042177 (2 ^ 96 - 1) := by
    unfold hostsList
    rw [if_neg (by decide), if_neg (by decide), if_neg (by decide)]
    congr 1
  have hmi : mappingInts ⟨4, 16909060, 32, none⟩
      ⟨6, 228362408135220253930399759055429042176, 32, none⟩ =
      [(16909060, 228362408135220253930399759055429042177)] := by
    unfold mappingInts enumLists
    rw [hd, hi6]
    show List.zip [16909060]
        (List.range' 228362408135220253930399759055429042177 (2 ^ 96 - 1)) =
      [(16909060, 228362408135220253930399759055429042177)]
    rw [show (2 ^ 96 - 1 : Nat) = 79228162514264337593543950334 + 1 by norm_num,
      List.range'_succ, List.zip_cons_cons, List.zip_nil_left]
  rw [hmi]
  rfl

/-- C10: with two same-family inputs of equal prefix length every entry pairs
addresses at the same offset inside their blocks: the distance of the source
component to the source network address equals the distance of the target
component to the target network address, at every index. -/
theorem claim10_equal_offsets {s t : String} {ns nt : IPNetwork}
    {es : List MappingEntry}
    (hs : ip_network s = .ok ns) (ht : ip_network t = .ok nt)
    (hv : ns.version = nt.version) (hpl : ns.plen = nt.plen)
    (hgen : generate_nat_mapping s t = (some es, none)) :
    es = (mappingInts ns nt).map
      (fun q => ⟨renderHost ns q.1, renderHost nt q.2⟩) ∧
    ∀ (i : Nat) (p : Nat × Nat), (mappingInts ns nt)[i]? = some p →
      p.1 - ns.networkAddress = p.2 - nt.networkAddress := by
  have hgs := ip_network_good hs
  have hgt := ip_network_good ht
  have hmax : ns.maxPlen = nt.maxPlen := by unfold IPNetwork.maxPlen; rw [hv]
  have hoffeq : hostOffset ns = hostOffset nt := by unfold hostOffset; rw [hpl, hmax]
  refine ⟨success_entries hs ht hgen, ?_⟩
  intro i p hp
  rw [mappingInts_eq_zip hgs hgt] at hp
  rw [List.getElem?_zip_eq_some] at hp
  obtain ⟨h1, h2⟩ := hp
  obtain ⟨hl1, hv1⟩ := List.getElem?_eq_some_iff.1 h1
  obtain ⟨hl2, hv2⟩ := List.getElem?_eq_some_iff.1 h2
  rw [List.getElem_range'] at hv1 hv2
  rw [← hv1, ← hv2, hoffeq]
  omega

theorem claim1_witness :
    (generate_nat_mapping "192.168.1.0/26" "10.188.65.0/26").1.map List.length =
      some (2 ^ (32 - 26) - 2) := by
  obtain ⟨es, hgen, h30, h31⟩ := claim1_cardinality
    (show ip_network "192.168.1.0/26" = .ok ⟨4, 3232235776, 26, none⟩ from rfl)
    (show ip_network "10.188.65.0/26" = .ok ⟨4, 180109568, 26, none⟩ from rfl)
    rfl rfl rfl
  rw [hgen]
  show some es.length = some (2 ^ (32 - 26) - 2)
  rw [h30 (by norm_num)]

theorem claim2_witness :
    generate_nat_mapping "192.168.1.0/24" "10.0.1.0/26" =
      (none, some ("❌ ERROR: Subnet masks must be identical! DMZ: /" ++
        toString (24 : Nat) ++ ", Internal: /" ++ toString (26 : Nat))) :=
  (claim2_prefix_mismatch
    (show ip_network "192.168.1.0/24" = .ok ⟨4, 3232235776, 24, none⟩ from rfl)
    (show ip_network "10.0.1.0/26" = .ok ⟨4, 167772416, 26, none⟩ from rfl)
    (by decide)).1

theorem claim6_witness :
    ip_network "192.168.1.5/26" = .ok ⟨4, 3232235776, 26, none⟩ ∧
    ip_network "192.168.1.0/26" = .ok ⟨4, 3232235776, 26, none⟩ ∧
    (3232235776 : Nat) % 2 ^ ((⟨4, 3232235776, 26, none⟩ : IPNetwork).maxPlen -
      (⟨4, 3232235776, 26, none⟩ : IPNetwork).plen) = 0 ∧
    generate_nat_mapping "192.168.1.5/26" "10.188.65.0/26" =
      generate_nat_mapping "192.168.1.0/26" "10.188.65.0/26" := by
  have h := claim6_loose_parsing
    (show ip_network "192.168.1.5/26" = .ok ⟨4, 3232235776, 26, none⟩ from rfl)
  exact ⟨rfl, rfl, h.1, h.2 "192.168.1.0/26" "10.188.65.0/26" rfl⟩

theorem claim7_witness :
    (generate_nat_mapping "192.168.1.0/30" "10.0.1.0/30").1.map List.length =
      some (min (enumLists ⟨4, 3232235776, 30, none⟩ ⟨4, 167772416, 30, none⟩).1.length
        (enumLists ⟨4, 3232235776, 30, none⟩ ⟨4, 167772416, 30, none⟩).2.length) := by
  obtain ⟨es, hgen, hlen⟩ := claim7_zip_truncation
    (show ip_network "192.168.1.0/30" = .ok ⟨4, 3232235776, 30, none⟩ from rfl)
    (show ip_network "10.0.1.0/30" = .ok ⟨4, 167772416, 30, none⟩ from rfl)
    rfl
  rw [hgen]
  show some es.length = _
  rw [hlen]

theorem claim10_witness :
    (mappingInts ⟨4, 3232235776, 30, none⟩ ⟨4, 167772416, 30, none⟩)[0]? =
      some (3232235777, 167772417) ∧
    (3232235777 : Nat) - (⟨4, 3232235776, 30, none⟩ : IPNetwork).networkAddress =
      (167772417 : Nat) - (⟨4, 167772416, 30, none⟩ : IPNetwork).networkAddress :=
  ⟨rfl, (claim10_equal_offsets
    (show ip_network "192.168.1.0/30" = .ok ⟨4, 3232235776, 30, none⟩ from rfl)
    (show ip_network "10.0.1.0/30" = .ok ⟨4, 167772416, 30, none⟩ from rfl)
    rfl rfl rfl).2 0 (3232235777, 167772417) rfl⟩
